import Mathlib

/-!
Verification development for the PSU price-target extraction pipeline
(`psu_extractor_api_ninjas.py`, `parallel_batch_processor.py`).

The Python source is shallowly embedded: Python floats are modelled as
exact rationals (`ℚ`), strings as `List Char`, fallible operations as
`Option`/`Except`, raised-and-caught exceptions as explicit result values,
and the specific regular expressions used by the extractor as an
executable matcher specialised to the constructs those patterns use
(literal characters under IGNORECASE, `\s+`, `\s*`, a lazy `.*?` that
does not cross a newline, an optional trailing literal, and the
money-capture group `\$(\d+(?:\.\d+)?)`).  `re.finditer` is modelled by
left-to-right scanning that resumes after each match, exactly as CPython
does for these (never zero-width) patterns.
-/

/-- Characters matched by `\s` (ASCII whitespace, as in the filing texts). -/
def isWs (c : Char) : Bool :=
  c = ' ' || c = '\t' || c = '\n' || c = '\r' || c = '\x0b' || c = '\x0c'

/-- One item of a compiled pattern.  Every regex literally appearing in
`PSUPriceExtractorAPINinjas.__init__` is a sequence of these items. -/
inductive RItem where
  | lit (c : Char)      -- a literal character, compared case-insensitively
  | litOpt (c : Char)   -- `c?` (greedy; in the source patterns never followed
                        -- by an item that could also match `c`, so no backtracking)
  | wsPlus              -- `\s+` (maximal munch; never followed by a whitespace item)
  | wsStar              -- `\s*` (maximal munch; never followed by a whitespace item)
  | lazyDots            -- `.*?` (lazy, `.` does not match a newline)
  | money               -- `\$(\d+(?:\.\d+)?)` : a captured dollar amount
deriving DecidableEq, Repr

/-- Numeric value of a run of decimal digits. -/
def digitsVal (ds : List Char) : ℚ :=
  ds.foldl (fun a c => 10 * a + ((c.toNat - 48 : ℕ) : ℚ)) 0

/-- Parse `\d+(?:\.\d+)?` greedily, returning the value and the rest.
Maximal munch is faithful here: in every source pattern the item after the
capture group can match neither a digit nor a dot. -/
def parseNum (s : List Char) : Option (ℚ × List Char) :=
  let ds := s.takeWhile Char.isDigit
  let r1 := s.dropWhile Char.isDigit
  if ds.isEmpty then none
  else
    match r1 with
    | '.' :: r2 =>
      let fs := r2.takeWhile Char.isDigit
      let r3 := r2.dropWhile Char.isDigit
      if fs.isEmpty then some (digitsVal ds, r1)
      else some (digitsVal ds + digitsVal fs / (10 : ℚ) ^ fs.length, r3)
    | _ => some (digitsVal ds, r1)

/-- Lazy `.*?`: try the continuation at the current position first, then
consume one non-newline character and retry. -/
def searchFrom (f : List Char → Option (List ℚ × List Char)) :
    List Char → Option (List ℚ × List Char)
  | [] => f []
  | c :: s =>
    match f (c :: s) with
    | some r => some r
    | none => if c = '\n' then none else searchFrom f s

/-- Match a compiled pattern at the start of `s`, returning the captured
dollar amounts (in capture order) and the remainder after the match. -/
def matchSeq : List RItem → List Char → Option (List ℚ × List Char)
  | [], s => some ([], s)
  | RItem.lit _ :: _, [] => none
  | RItem.lit ch :: rest, c :: s =>
    if c.toLower = ch then matchSeq rest s else none
  | RItem.litOpt _ :: rest, [] => matchSeq rest []
  | RItem.litOpt ch :: rest, c :: s =>
    if c.toLower = ch then matchSeq rest s else matchSeq rest (c :: s)
  | RItem.wsPlus :: rest, s =>
    match s with
    | c :: _ => if isWs c then matchSeq rest (s.dropWhile isWs) else none
    | [] => none
  | RItem.wsStar :: rest, s => matchSeq rest (s.dropWhile isWs)
  | RItem.lazyDots :: rest, s => searchFrom (matchSeq rest) s
  | RItem.money :: rest, s =>
    match s with
    | '$' :: s1 =>
      match parseNum s1 with
      | none => none
      | some (q, s2) =>
        match matchSeq rest s2 with
        | none => none
        | some (qs, r) => some (q :: qs, r)
    | _ => none

/-- `re.finditer`: scan left to right, resuming after each match (the
source patterns always consume at least one character; for robustness a
zero-width match advances by one, as CPython does). -/
def findIterAux (pat : List RItem) : ℕ → List Char → List (List ℚ)
  | 0, _ => []
  | fuel + 1, s =>
    match matchSeq pat s with
    | some (qs, rest) =>
      if rest.length < s.length then qs :: findIterAux pat fuel rest
      else
        match s with
        | [] => [qs]
        | _ :: s1 => qs :: findIterAux pat fuel s1
    | none =>
      match s with
      | [] => []
      | _ :: s1 => findIterAux pat fuel s1

/-- The scan starts with fuel exceeding the string length; every recursive
step strictly shortens the string, so the fuel never runs out. -/
def findIter (pat : List RItem) (s : List Char) : List (List ℚ) :=
  findIterAux pat (s.length + 1) s

/-- Compile a lowercase literal word to pattern items. -/
def lits (s : String) : List RItem := s.toList.map RItem.lit

/-- `self.primary_patterns` (source lines 23-31). -/
def primary_patterns : List (List RItem) :=
  [ lits "psu" ++ [RItem.lazyDots, RItem.money]
  , lits "performance" ++ [RItem.wsPlus] ++ lits "stock" ++ [RItem.wsPlus] ++
      lits "unit" ++ [RItem.lazyDots, RItem.money]
  , lits "performance" ++ [RItem.lazyDots] ++ lits "target" ++ [RItem.lazyDots, RItem.money]
  , lits "stock" ++ [RItem.wsPlus] ++ lits "price" ++ [RItem.wsPlus] ++
      lits "target" ++ [RItem.lazyDots, RItem.money]
  , lits "price" ++ [RItem.wsPlus] ++ lits "target" ++ [RItem.lazyDots, RItem.money]
  , lits "performance" ++ [RItem.wsPlus] ++ lits "goal" ++ [RItem.lazyDots, RItem.money]
  , lits "vesting" ++ [RItem.lazyDots] ++ lits "target" ++ [RItem.lazyDots, RItem.money] ]

/-- `self.secondary_patterns` (source lines 33-38). -/
def secondary_patterns : List (List RItem) :=
  [ lits "performance" ++ [RItem.lazyDots, RItem.money]
  , lits "target" ++ [RItem.lazyDots, RItem.money]
  , lits "goal" ++ [RItem.lazyDots, RItem.money]
  , lits "hurdle" ++ [RItem.lazyDots, RItem.money] ]

/-- `self.range_patterns` (source lines 41-49). -/
def range_patterns : List (List RItem) :=
  [ lits "target" ++ [RItem.lazyDots] ++ lits "rangin" ++ [RItem.litOpt 'g', RItem.wsPlus] ++
      lits "from" ++ [RItem.wsPlus, RItem.money, RItem.wsPlus] ++ lits "to" ++
      [RItem.wsPlus, RItem.money]
  , lits "price" ++ [RItem.lazyDots] ++ lits "target" ++
      [RItem.lazyDots, RItem.money, RItem.wsPlus] ++ lits "to" ++ [RItem.wsPlus, RItem.money]
  , lits "target" ++ [RItem.lazyDots, RItem.money, RItem.wsPlus] ++ lits "to" ++
      [RItem.wsPlus, RItem.money]
  , lits "from" ++ [RItem.wsPlus, RItem.money, RItem.wsPlus] ++ lits "to" ++
      [RItem.wsPlus, RItem.money]
  , [RItem.money, RItem.wsPlus] ++ lits "to" ++ [RItem.wsPlus, RItem.money]
  , [RItem.money, RItem.wsStar, RItem.lit '-', RItem.wsStar, RItem.money]
  , lits "between" ++ [RItem.wsPlus, RItem.money, RItem.wsPlus] ++ lits "and" ++
      [RItem.wsPlus, RItem.money] ]

/-- Python `needle in hay` substring test. -/
def isSubstr (needle : List Char) : List Char → Bool
  | [] => needle.isEmpty
  | c :: t => needle.isPrefixOf (c :: t) || isSubstr needle t

/-- `re.sub` for a literal needle (used to restore `_TO_` / `_DOT_`):
replace leftmost non-overlapping occurrences, resuming after each. -/
def replaceAllAux (needle repl : List Char) : ℕ → List Char → List Char
  | 0, s => s
  | _, [] => []
  | fuel + 1, c :: r =>
    if !needle.isEmpty && needle.isPrefixOf (c :: r)
    then repl ++ replaceAllAux needle repl fuel (r.drop (needle.length - 1))
    else c :: replaceAllAux needle repl fuel r

/-- The scan starts with fuel exceeding the string length; every recursive
step strictly shortens the string, so the fuel never runs out. -/
def replaceAll (needle repl : List Char) (s : List Char) : List Char :=
  replaceAllAux needle repl (s.length + 1) s

/-- Match `\s+` maximally (never followed by a whitespace-matching piece
in the two protection patterns). -/
def matchWsPlus (s : List Char) : Option (List Char) :=
  match s with
  | c :: _ => if isWs c then some (s.dropWhile isWs) else none
  | [] => none

/-- Parse `\d+(?:\.\d+)?` returning the matched text (for `re.sub`
backreferences) and the rest. -/
def parseNumText (s : List Char) : Option (List Char × List Char) :=
  let ds := s.takeWhile Char.isDigit
  let r1 := s.dropWhile Char.isDigit
  if ds.isEmpty then none
  else
    match r1 with
    | '.' :: r2 =>
      let fs := r2.takeWhile Char.isDigit
      let r3 := r2.dropWhile Char.isDigit
      if fs.isEmpty then some (ds, r1) else some (ds ++ '.' :: fs, r3)
    | _ => some (ds, r1)

/-- Match `\$\d+(?:\.\d+)?` returning the matched text and the rest. -/
def matchMoneyText (s : List Char) : Option (List Char × List Char) :=
  match s with
  | '$' :: s1 =>
    match parseNumText s1 with
    | some (txt, rest) => some ('$' :: txt, rest)
    | none => none
  | _ => none

/-- Match `(\$\d+(?:\.\d+)?)\s+to\s+(\$\d+(?:\.\d+)?)` (case-sensitive, as
in the source: no IGNORECASE flag on this `re.sub`), returning the
substituted text `\1_TO_\2` and the rest. -/
def matchToPattern (s : List Char) : Option (List Char × List Char) :=
  match matchMoneyText s with
  | none => none
  | some (g1, r1) =>
    match matchWsPlus r1 with
    | none => none
    | some r2 =>
      match r2 with
      | 't' :: 'o' :: r3 =>
        match matchWsPlus r3 with
        | none => none
        | some r4 =>
          match matchMoneyText r4 with
          | none => none
          | some (g2, r5) => some (g1 ++ "_TO_".toList ++ g2, r5)
      | _ => none

/-- Match `(\$\d+)\.(\d+)`, returning the substituted text `\1_DOT_\2`
and the rest. -/
def matchDotPattern (s : List Char) : Option (List Char × List Char) :=
  match s with
  | '$' :: s1 =>
    let ds := s1.takeWhile Char.isDigit
    let r1 := s1.dropWhile Char.isDigit
    if ds.isEmpty then none
    else
      match r1 with
      | '.' :: r2 =>
        let fs := r2.takeWhile Char.isDigit
        let r3 := r2.dropWhile Char.isDigit
        if fs.isEmpty then none
        else some ('$' :: ds ++ "_DOT_".toList ++ fs, r3)
      | _ => none
  | _ => none

/-- `re.sub` scanning loop for one of the two protection patterns. -/
def subScanAux (pat : List Char → Option (List Char × List Char)) :
    ℕ → List Char → List Char
  | 0, s => s
  | _, [] => []
  | fuel + 1, c :: r =>
    match pat (c :: r) with
    | some (repl, rest) =>
      if rest.length < r.length + 1 then repl ++ subScanAux pat fuel rest
      else c :: subScanAux pat fuel r
    | none => c :: subScanAux pat fuel r

/-- The scan starts with fuel exceeding the string length; every recursive
step strictly shortens the string, so the fuel never runs out. -/
def subScan (pat : List Char → Option (List Char × List Char)) (s : List Char) :
    List Char :=
  subScanAux pat (s.length + 1) s

/-- `re.split(r'[.!?]', text)` — all pieces, including empty ones. -/
def splitSentences : List Char → List (List Char)
  | [] => [[]]
  | c :: r =>
    if c = '.' || c = '!' || c = '?' then [] :: splitSentences r
    else
      match splitSentences r with
      | [] => [[c]]
      | h :: t => (c :: h) :: t

/-- `psu_keywords` (source lines 64-69). -/
def psu_keywords : List String :=
  [ "PSU", "performance stock unit", "performance unit", "performance share"
  , "performance-based", "performance target", "performance goal"
  , "vest", "vesting", "vesting schedule", "vesting condition"
  , "target", "hurdle", "threshold", "performance metric" ]

/-- `exclude_keywords` (source lines 72-81). -/
def exclude_keywords : List String :=
  [ "warrant", "exercise price", "exercise of warrant"
  , "transaction cost", "advisory cost", "legal fee", "accounting fee"
  , "merger", "acquisition", "exchange offer", "tender offer"
  , "dividend", "distribution", "split", "spinoff"
  , "underwriting", "commission", "expense", "fee"
  , "registration", "prospectus", "offering price"
  , "market price", "closing price", "trading price"
  , "book value", "net worth", "assets", "liabilities" ]

/-- The restored sentence segments of a filing text: protect price ranges
and decimals, split on `[.!?]`, then restore `_TO_` / `_DOT_` in each
sentence (source lines 85-97). -/
def restoredSentences (filing_text : List Char) : List (List Char) :=
  let protected_text := subScan matchDotPattern (subScan matchToPattern filing_text)
  (splitSentences protected_text).map fun s =>
    replaceAll "_DOT_".toList ['.'] (replaceAll "_TO_".toList " to ".toList s)

/-- Keyword filter for one restored sentence (source lines 99-107):
at least one PSU keyword and no excluded keyword, case-insensitively. -/
def sentenceQualifies (sentence : List Char) : Bool :=
  let sentence_lower := sentence.map Char.toLower
  (psu_keywords.any fun kw => isSubstr (kw.toList.map Char.toLower) sentence_lower) &&
  !(exclude_keywords.any fun kw => isSubstr (kw.toList.map Char.toLower) sentence_lower)

/-- The qualifying PSU sections of a filing text (source lines 83-108). -/
def psuSectionsOf (filing_text : List Char) : List (List Char) :=
  (restoredSentences filing_text).filter sentenceQualifies

/-- All captures of a pattern list over one section, in source order:
pattern-major, then match, then capture group (the `float()` conversion
never fails since the group is a digit pattern). -/
def collectPatterns (pats : List (List RItem)) (sec : List Char) : List ℚ :=
  pats.flatMap fun pat => (findIter pat sec).flatMap fun qs => qs

/-- Range-tier hits over all qualifying sections (source lines 114-124). -/
def rangeHits (sections : List (List Char)) : List ℚ :=
  sections.flatMap (collectPatterns range_patterns)

/-- Primary-tier hits in one section (source lines 129-135). -/
def primaryHits (sec : List Char) : List ℚ := collectPatterns primary_patterns sec

/-- Secondary-tier hits over all sections (source lines 138-145). -/
def secondaryAll (sections : List (List Char)) : List ℚ :=
  sections.flatMap (collectPatterns secondary_patterns)

/-- The primary/secondary loop exactly as written (source lines 127-145):
the secondary sweep is nested inside the per-section primary loop and runs
over all sections whenever `targets` is still empty after a section's
primary pass. -/
def primSecLoop (sections : List (List Char)) : List ℚ :=
  sections.foldl
    (fun targets sec =>
      let t1 := targets ++ primaryHits sec
      if t1.isEmpty then t1 ++ secondaryAll sections else t1)
    []

/-- `PSUPriceExtractorAPINinjas.extract_psu_price_targets` (source
lines 57-151).  Returns `list(set(filtered_targets))`: membership and
length are Python-set semantics; the model fixes the (in Python
unspecified) order by `List.dedup`. -/
def extract_psu_price_targets (filing_text : List Char) : List ℚ :=
  let psu_sections := psuSectionsOf filing_text
  if psu_sections.isEmpty then []
  else
    let range_targets := rangeHits psu_sections
    let targets := if range_targets.isEmpty then primSecLoop psu_sections else range_targets
    (targets.filter fun t => 5 ≤ t && t ≤ 500).dedup

/-- `PSUPriceExtractorAPINinjas.validate_psu_targets` (source
lines 153-165).  The division is evaluated only under `target > price`,
as in the source.  The source never reaches this function with a zero
price: `if not price_data:` in `extract_from_ticker` treats a fetched
`0.0` as falsy and returns early, so the rational division-by-zero
convention of the model is never exercised by the pipeline. -/
def validate_psu_targets (targets : List ℚ) (current_stock_price : ℚ) : List ℚ :=
  targets.foldr
    (fun target valid_targets =>
      if current_stock_price < target then
        let upside := (target - current_stock_price) / current_stock_price
        if 1/10 ≤ upside ∧ upside ≤ 10 then target :: valid_targets else valid_targets
      else valid_targets)
    []

/-! ## `extract_from_ticker` (source lines 167-373)

External collaborators (`APINinjasClient`) are oracles: the fetched price
is an `Option ℚ`, the filing list a `List Filing`, and the per-filing
content download an `Option (List Char)` (a download exception inside the
per-filing `try` behaves exactly like a missing content: the filing is
skipped).  The `TypeError` that the outer `try` catches when sorting
`None` filing dates is modelled as an explicit branch returning the error
result the handler builds.  The falsy-price check at line 177 returns
before any division, so no `ZeroDivisionError` can occur. -/

/-- A filing descriptor as returned by the filing service
(`filing.get('filing_date')`, `filing.get('filing_url')`,
`filing.get('form', '4')`). -/
structure Filing where
  filing_date : Option String
  filing_url : Option String
  form : Option String
deriving DecidableEq, Repr

/-- One entry of `filings_analyzed` (source lines 264-269). -/
structure AnalyzedFiling where
  date : Option String
  type : String
  url : Option String
  targets_found : ℕ
deriving DecidableEq, Repr

/-- One entry of `filing_content_snippets` (source lines 251-258). -/
structure Snippet where
  filing_date : Option String
  filing_url : Option String
  target_found : ℚ
  target_string : List Char
  context : List Char
  position : ℕ
deriving DecidableEq, Repr

/-- The per-ticker result dictionary.  A key that some result dictionaries
omit (`error`, `rejection_reason`) is an `Option`/`Bool` that is
`none`/`false` when absent; no source code path distinguishes an absent
key from a `None` value. -/
structure ExtractionResultD where
  ticker : String
  error : Option String := none
  current_price : Option ℚ
  psu_targets : List ℚ
  filing_source : Option String
  filing_date : Option String
  nearest_target_upside : Option ℚ
  furthest_target_upside : Option ℚ
  form4_filings_found : ℕ
  filings_analyzed : List AnalyzedFiling
  filing_content_snippets : List Snippet
  search_months_back : ℕ
  rejection_reason : Option String := none
  retry_failed : Bool := false
deriving DecidableEq, Repr

/-- Index of the first occurrence of a substring (`str.find`). -/
def idxOfSub (needle : List Char) : List Char → Option ℕ
  | [] => if needle.isEmpty then some 0 else none
  | c :: t =>
    if needle.isPrefixOf (c :: t) then some 0
    else (idxOfSub needle t).map (· + 1)

/-- Decimal digits of `n / d` (`n < d`) by long division, up to `fuel`
places, dropping the trailing zero tail. -/
def decDigits (n d : ℕ) : ℕ → List Char
  | 0 => []
  | fuel + 1 =>
    if n = 0 then []
    else Char.ofNat (48 + (10 * n) / d) :: decDigits ((10 * n) % d) d fuel

/-- `f"${target:.2f}" if target % 1 == 0 else f"${target}"` (source
line 243).  For a non-integral target the model prints the exact decimal
expansion; Python prints the shortest float `repr`, which agrees on every
value these filings produce (short decimal literals). -/
def fmtTarget (target : ℚ) : List Char :=
  if target.den = 1 then '$' :: (toString target.num).toList ++ ".00".toList
  else
    '$' :: (toString (target.num / (target.den : ℤ))).toList ++
      '.' :: decDigits (target.num.natAbs % target.den) target.den 64

/-- Snippet collection for one filing that yielded targets (source
lines 239-258). -/
def snippetsFor (filing_date filing_url : Option String) (content : List Char)
    (targets : List ℚ) : List Snippet :=
  targets.flatMap fun target =>
    let target_str := fmtTarget target
    match idxOfSub target_str content with
    | some index =>
      let start := index - 500
      let stop := min content.length (index + 500)
      [{ filing_date := filing_date, filing_url := filing_url, target_found := target
       , target_string := target_str, context := (content.drop start).take (stop - start)
       , position := index }]
    | none => []

/-- Accumulated state of the per-filing loop (source lines 216-276). -/
structure FilingScan where
  all_targets : List ℚ
  filings_analyzed : List AnalyzedFiling
  filing_content_snippets : List Snippet
deriving DecidableEq, Repr

/-- The per-filing loop: skip filings whose content cannot be downloaded
and filings with zero extracted targets; otherwise accumulate targets,
snippets and the provenance entry. -/
def processFilings (filings : List Filing) (download : Filing → Option (List Char)) :
    FilingScan :=
  filings.foldl
    (fun acc filing =>
      match download filing with
      | none => acc
      | some content =>
        let targets := extract_psu_price_targets content
        if targets.isEmpty then acc
        else
          { all_targets := acc.all_targets ++ targets
          , filings_analyzed := acc.filings_analyzed ++
              [{ date := filing.filing_date, type := filing.form.getD "4"
               , url := filing.filing_url, targets_found := targets.length }]
          , filing_content_snippets := acc.filing_content_snippets ++
              snippetsFor filing.filing_date filing.filing_url content targets })
    ⟨[], [], []⟩

/-- `unique_targets = list(set(all_targets)); unique_targets.sort()`
(source lines 279-280). -/
def uniqueRawTargets (filings : List Filing) (download : Filing → Option (List Char)) :
    List ℚ :=
  ((processFilings filings download).all_targets.dedup).insertionSort (· ≤ ·)

/-- `sorted(filings_analyzed, key=lambda x: x.get('date',''), reverse=True)`
then take the first entry with `targets_found > 0` (source lines 336-342).
With at least two entries and a `None` date, Python's sort raises
`TypeError` (`None` is not comparable with `str`), which the outer
handler converts to an error result. -/
def filingDateOf (filings_analyzed : List AnalyzedFiling) : Except Unit (Option String) :=
  if filings_analyzed.isEmpty then Except.ok none
  else if 2 ≤ filings_analyzed.length ∧ filings_analyzed.any (fun a => a.date.isNone) then
    Except.error ()
  else
    let sorted_filings := filings_analyzed.insertionSort
      (fun a b => (b.date.getD "") ≤ (a.date.getD ""))
    Except.ok
      (match sorted_filings.find? (fun f => 0 < f.targets_found) with
       | some f => f.date
       | none => none)

/-- The price-unavailable result (source lines 177-191). -/
def priceErrorResult (ticker : String) (months_back : ℕ) : ExtractionResultD :=
  { ticker := ticker.toUpper
  , error := some ("Could not get current stock price for " ++ ticker)
  , current_price := none, psu_targets := [], filing_source := none, filing_date := none
  , nearest_target_upside := none, furthest_target_upside := none
  , form4_filings_found := 0, filings_analyzed := [], filing_content_snippets := []
  , search_months_back := months_back }

/-- The no-filings result (source lines 200-213): no `rejection_reason`
key and no `error` key. -/
def noFilingsResult (ticker : String) (months_back : ℕ) (current_price : ℚ) :
    ExtractionResultD :=
  { ticker := ticker.toUpper
  , current_price := some current_price, psu_targets := []
  , filing_source := some "Form 4", filing_date := none
  , nearest_target_upside := none, furthest_target_upside := none
  , form4_filings_found := 0, filings_analyzed := [], filing_content_snippets := []
  , search_months_back := months_back }

/-- The two quality-control rejection results (source lines 287-300 and
312-325), identical except for the reason string. -/
def rejectionResult (ticker : String) (months_back : ℕ) (current_price : ℚ)
    (form4_filings_found : ℕ) (reason : String) : ExtractionResultD :=
  { ticker := ticker.toUpper
  , current_price := some current_price, psu_targets := []
  , filing_source := some "Form 4", filing_date := none
  , nearest_target_upside := none, furthest_target_upside := none
  , form4_filings_found := form4_filings_found
  , filings_analyzed := [], filing_content_snippets := []
  , search_months_back := months_back
  , rejection_reason := some reason }

/-- The catch-all `except Exception` result (source lines 358-373). -/
def exceptErrorResult (ticker : String) (months_back : ℕ) (msg : String) :
    ExtractionResultD :=
  { ticker := ticker.toUpper
  , error := some msg
  , current_price := none, psu_targets := [], filing_source := none, filing_date := none
  , nearest_target_upside := none, furthest_target_upside := none
  , form4_filings_found := 0, filings_analyzed := [], filing_content_snippets := []
  , search_months_back := months_back }

/-- `PSUPriceExtractorAPINinjas.extract_from_ticker` (source
lines 167-373).  `if not price_data:` at line 177 is a Python truthiness
test: both a missing price and a fetched price of `0.0` are falsy and
return the price-fetch error result, so the pipeline below only ever runs
with a nonzero price (and `validate_psu_targets` never divides by
zero). -/
def extract_from_ticker (ticker : String) (months_back : ℕ) (price_data : Option ℚ)
    (filings : List Filing) (download : Filing → Option (List Char)) :
    ExtractionResultD :=
  match price_data with
  | none => priceErrorResult ticker months_back
  | some current_price =>
    if current_price = 0 then priceErrorResult ticker months_back
    else if filings.isEmpty then noFilingsResult ticker months_back current_price
    else
      let scan := processFilings filings download
      let unique_targets := uniqueRawTargets filings download
      if unique_targets.length < 2 then
        rejectionResult ticker months_back current_price filings.length
          ("Only " ++ toString unique_targets.length ++
            " unique target(s) found - minimum 2 required")
      else
        let valid_targets := validate_psu_targets unique_targets current_price
        if valid_targets.length < 2 then
          rejectionResult ticker months_back current_price filings.length
            ("Only " ++ toString valid_targets.length ++
              " valid target(s) after validation - minimum 2 required")
        else
          match filingDateOf scan.filings_analyzed with
          | Except.error _ =>
            exceptErrorResult ticker months_back
              "TypeError: NoneType and str are not comparable"
          | Except.ok filing_date =>
            { ticker := ticker.toUpper
            , current_price := some current_price
            , psu_targets := valid_targets
            , filing_source := some "Form 4"
            , filing_date := filing_date
            , nearest_target_upside :=
                valid_targets.min?.map (fun m => (m - current_price) / current_price * 100)
            , furthest_target_upside :=
                valid_targets.max?.map (fun m => (m - current_price) / current_price * 100)
            , form4_filings_found := filings.length
            , filings_analyzed := scan.filings_analyzed
            , filing_content_snippets := scan.filing_content_snippets
            , search_months_back := months_back }

/-! ## `parallel_batch_processor.py`

`process_ticker` (lines 312-446) is modelled as a total function over an
oracle giving the outcome of each attempt: either the result dictionary
returned by `extract_from_ticker`, or one of the exception classes the
handlers catch.  Logging, sleeping and the statistics side effects that no
claim references are omitted; every `return` is translated.  The
completion loop of `process_all_tickers_parallel` (lines 503-554) runs
sequentially in the main thread (`as_completed` iteration), so it is a
fold over the completed task outcomes. -/

/-- `ParallelBatchProcessor._create_error_result` (source lines 448-464). -/
def createErrorResult (ticker : String) (error_message : String) : ExtractionResultD :=
  { ticker := ticker.toUpper
  , error := some error_message
  , current_price := none, psu_targets := [], filing_source := none, filing_date := none
  , nearest_target_upside := none, furthest_target_upside := none
  , form4_filings_found := 0, filings_analyzed := [], filing_content_snippets := []
  , search_months_back := 3
  , retry_failed := true }

/-- The outcome of one attempt inside `process_ticker`: a returned result
dictionary or one of the caught exception classes. -/
inductive AttemptOutcome where
  | ok (result : ExtractionResultD)
  | timeout (msg : String)      -- requests.exceptions.Timeout
  | requestExc (msg : String)   -- requests.exceptions.RequestException
  | keyError (msg : String)     -- KeyError
  | valueError (msg : String)   -- ValueError
  | unexpected (msg : String)   -- any other Exception
deriving DecidableEq, Repr

/-- `'429' in str(e) or 'rate limit' in str(e).lower()` (source line 389). -/
def isRateLimitMsg (msg : String) : Bool :=
  isSubstr "429".toList msg.toList ||
  isSubstr "rate limit".toList (msg.toList.map Char.toLower)

/-- The retry loop of `process_ticker`, with `max_retries = 3`.  `fuel`
starts at 3; running out corresponds to falling off the `for` loop
(source lines 443-446).  A returned result with non-empty `psu_targets`
but no `furthest_target_upside` makes `furthest_upside > 40` raise a
`TypeError` (source lines 355-356), caught by `except Exception`. -/
def processTickerLoop (ticker : String) (attempts : ℕ → AttemptOutcome) :
    ℕ → ℕ → ExtractionResultD
  | 0, _ => createErrorResult ticker "Unknown error: retry loop completed without result"
  | fuel + 1, attempt =>
    match attempts attempt with
    | AttemptOutcome.ok result =>
      if !result.psu_targets.isEmpty then
        match result.furthest_target_upside with
        | some _ => result
        | none =>
          if attempt < 2 then processTickerLoop ticker attempts fuel (attempt + 1)
          else createErrorResult ticker
            "Unexpected error after 3 attempts: TypeError: NoneType and int are not comparable"
      else result
    | AttemptOutcome.timeout m =>
      if attempt < 2 then processTickerLoop ticker attempts fuel (attempt + 1)
      else createErrorResult ticker ("Timeout after 3 attempts: " ++ m)
    | AttemptOutcome.requestExc m =>
      if isRateLimitMsg m then
        if attempt < 2 then processTickerLoop ticker attempts fuel (attempt + 1)
        else createErrorResult ticker "Rate limit exceeded after 3 attempts"
      else
        if attempt < 2 then processTickerLoop ticker attempts fuel (attempt + 1)
        else createErrorResult ticker ("Network error after 3 attempts: " ++ m)
    | AttemptOutcome.keyError m =>
      if attempt < 2 then processTickerLoop ticker attempts fuel (attempt + 1)
      else createErrorResult ticker ("Data structure error after 3 attempts: " ++ m)
    | AttemptOutcome.valueError m =>
      if attempt < 2 then processTickerLoop ticker attempts fuel (attempt + 1)
      else createErrorResult ticker ("Data validation error after 3 attempts: " ++ m)
    | AttemptOutcome.unexpected m =>
      if attempt < 2 then processTickerLoop ticker attempts fuel (attempt + 1)
      else createErrorResult ticker ("Unexpected error after 3 attempts: " ++ m)

/-- `ParallelBatchProcessor.process_ticker` (source lines 312-446). -/
def process_ticker (ticker : String) (attempts : ℕ → AttemptOutcome) : ExtractionResultD :=
  processTickerLoop ticker attempts 3 0

/-- The orchestrator's classification of a completed result, as performed
by the completion loop (source lines 516-539). -/
inductive ResultClass where
  | success          -- non-empty `psu_targets`
  | permanentFailure -- `retry_failed` set after exhausted retries
  | rejection        -- `rejection_reason` present
  | noTargets        -- anything else
deriving DecidableEq, Repr

/-- Classify a result exactly as the `if/elif` chain of the completion
loop does. -/
def classifyResult (result : ExtractionResultD) : ResultClass :=
  if !result.psu_targets.isEmpty then ResultClass.success
  else if result.retry_failed then ResultClass.permanentFailure
  else if result.rejection_reason.isSome then ResultClass.rejection
  else ResultClass.noTargets

/-- The mutable orchestrator state touched by the completion loop: the
counters it updates and the three result lists. -/
structure OrchState where
  processed_tickers : ℕ
  successful_extractions : ℕ
  failed_extractions : ℕ
  current_ticker : Option String
  results : List ExtractionResultD
  high_upside_results : List ExtractionResultD
  low_upside_results : List ExtractionResultD
deriving DecidableEq, Repr

/-- The initial (fresh-start) orchestrator state. -/
def initialOrchState : OrchState :=
  { processed_tickers := 0, successful_extractions := 0, failed_extractions := 0
  , current_ticker := none, results := [], high_upside_results := []
  , low_upside_results := [] }

/-- Outcome of one submitted future as seen at `future.result()`. -/
inductive TaskOutcome where
  | completed (result : ExtractionResultD)
  | raised (msg : String)
deriving DecidableEq, Repr

/-- One iteration of the completion loop (source lines 503-554). -/
def orchStep (st : OrchState) (task : String × TaskOutcome) : OrchState :=
  match task.2 with
  | TaskOutcome.raised msg =>
    { st with processed_tickers := st.processed_tickers + 1
            , failed_extractions := st.failed_extractions + 1
            , results := st.results ++ [createErrorResult task.1 ("Executor error: " ++ msg)] }
  | TaskOutcome.completed result =>
    let st1 := { st with processed_tickers := st.processed_tickers + 1
                       , current_ticker := some task.1 }
    if !result.psu_targets.isEmpty then
      let st2 := { st1 with successful_extractions := st1.successful_extractions + 1
                          , results := st1.results ++ [result] }
      match result.furthest_target_upside with
      | some furthest_upside =>
        if 40 < furthest_upside then
          { st2 with high_upside_results := st2.high_upside_results ++ [result] }
        else
          { st2 with low_upside_results := st2.low_upside_results ++ [result] }
      | none =>
        -- `result.get('furthest_target_upside', 0)` returns the stored `None`
        -- and `None > 40` raises, landing in the loop's `except` block after
        -- the updates above already happened (source lines 546-554)
        { st2 with processed_tickers := st2.processed_tickers + 1
                 , failed_extractions := st2.failed_extractions + 1
                 , results := st2.results ++
                     [createErrorResult task.1
                       "Executor error: NoneType and int are not comparable"] }
    else if result.retry_failed then
      { st1 with failed_extractions := st1.failed_extractions + 1
               , results := st1.results ++ [result] }
    else if result.rejection_reason.isSome then st1
    else { st1 with failed_extractions := st1.failed_extractions + 1 }

/-- The completion loop over all finished tasks, in completion order. -/
def processCompleted (st0 : OrchState) (tasks : List (String × TaskOutcome)) : OrchState :=
  tasks.foldl orchStep st0

/-- The narrowing of the loaded ticker list performed by
`process_all_tickers_parallel` (source lines 479-493): an optional
`start_from` ticker selects a starting *index* (falling back to 0 when the
ticker is not in the list, via the caught `ValueError`), and an optional
`max_tickers` bounds the slice. -/
def computeDispatch (tickers : List String) (start_from : Option String)
    (max_tickers : Option ℕ) : List String :=
  let start_index :=
    match start_from with
    | none => 0
    | some s => if s.toUpper ∈ tickers then tickers.indexOf s.toUpper else 0
  match max_tickers with
  | some m =>
    -- `if max_tickers:` is a truthiness test: a limit of 0 is falsy and
    -- means "no limit", like `None`
    if m = 0 then tickers.drop start_index else (tickers.drop start_index).take m
  | none => tickers.drop start_index

/-- The dispatched ticker list of a resumed run, as a function of the
loaded progress state and the run parameters.  The source narrows the list
only by `start_from` / `max_tickers` (source lines 466-500); the loaded
`results` are never consulted, which this projection makes explicit. -/
def dispatchForRun (loaded : OrchState) (tickers : List String)
    (start_from : Option String) (max_tickers : Option ℕ) : List String :=
  computeDispatch tickers start_from max_tickers

/-! ## `load_progress` and the stats dictionary (source lines 83-103)

The persisted `stats` object is a JSON dictionary; to settle the
schema-tolerance claim its dictionary semantics must be explicit, so it is
modelled as an association list over a small JSON-ish value type.
`self.stats[k] += 1` returns `none` when the key is missing (Python
`KeyError`) or non-numeric (Python `TypeError`). -/

/-- A persisted JSON scalar. -/
inductive PVal where
  | int (n : ℤ)
  | str (s : String)
  | null
deriving DecidableEq, Repr

/-- A JSON object holding the statistics counters. -/
abbrev StatsDict : Type := List (String × PVal)

/-- The `self.stats` initialised in `__init__` (source lines 36-49). -/
def defaultStats : StatsDict :=
  [ ("start_time", PVal.null)
  , ("processed_tickers", PVal.int 0)
  , ("successful_extractions", PVal.int 0)
  , ("failed_extractions", PVal.int 0)
  , ("single_target_rejections", PVal.int 0)
  , ("api_ninjas_rate_limits", PVal.int 0)
  , ("sec_rate_limits", PVal.int 0)
  , ("retry_attempts", PVal.int 0)
  , ("retry_successes", PVal.int 0)
  , ("permanent_failures", PVal.int 0)
  , ("last_processed", PVal.null)
  , ("current_ticker", PVal.null) ]

/-- `d[k]` as an `Option` (`none` models `KeyError`). -/
def dictGet (d : StatsDict) (k : String) : Option PVal :=
  (d.find? (fun kv => kv.1 = k)).map (fun kv => kv.2)

/-- `d[k] = v`. -/
def dictSet (d : StatsDict) (k : String) (v : PVal) : StatsDict :=
  if d.any (fun kv => kv.1 = k) then
    d.map (fun kv => if kv.1 = k then (k, v) else kv)
  else d ++ [(k, v)]

/-- `self.stats[k] += 1`: `none` when the key is absent (`KeyError`) or
its value is not a number (`TypeError`). -/
def incrCounter (d : StatsDict) (k : String) : Option StatsDict :=
  match dictGet d k with
  | some (PVal.int n) => some (dictSet d k (PVal.int (n + 1)))
  | _ => none

/-- The parsed content of `parallel_batch_progress.json`; a field is
`none` when the file's top-level object lacks that key. -/
structure ProgressData where
  stats : Option StatsDict
  results : Option (List ExtractionResultD)
  high_upside_results : Option (List ExtractionResultD)
  low_upside_results : Option (List ExtractionResultD)

/-- The three ways reading the progress file can go. -/
inductive ProgressFile where
  | missing                    -- `os.path.exists` is false
  | corrupt                    -- `json.load` raises, caught by the handler
  | parsed (data : ProgressData)

/-- The state fields `load_progress` assigns. -/
structure LoadedState where
  stats : StatsDict
  results : List ExtractionResultD
  high_upside_results : List ExtractionResultD
  low_upside_results : List ExtractionResultD

/-- `ParallelBatchProcessor.load_progress` (source lines 83-103).  Total:
every exception inside the `try` is caught.  On a parsed file the four
assignments always complete (`dict.get` never raises); the subsequent
status prints may raise `KeyError` on a partial `stats` object, but that
is swallowed *after* the assignments took effect, so the resulting state
is the same. -/
def load_progress (file : ProgressFile) (self : LoadedState) : LoadedState :=
  match file with
  | ProgressFile.missing => self
  | ProgressFile.corrupt => self
  | ProgressFile.parsed data =>
    { stats := data.stats.getD self.stats
    , results := data.results.getD []
    , high_upside_results := data.high_upside_results.getD []
    , low_upside_results := data.low_upside_results.getD [] }

/-! ## Theorems -/

/-- `validate_psu_targets` is the order-preserving filter of its input. -/
lemma validate_psu_targets_eq_filter (targets : List ℚ) (p : ℚ) :
    validate_psu_targets targets p =
      targets.filter fun t =>
        decide (p < t) && decide (1/10 ≤ (t - p) / p ∧ (t - p) / p ≤ 10) := by
  induction targets with
  | nil => rfl
  | cons a l ih =>
    have hstep : validate_psu_targets (a :: l) p =
        if p < a then
          (if 1/10 ≤ (a - p) / p ∧ (a - p) / p ≤ 10 then a :: validate_psu_targets l p
           else validate_psu_targets l p)
        else validate_psu_targets l p := rfl
    rw [List.filter_cons, hstep, ih]
    by_cases h1 : p < a
    · by_cases h2 : 1/10 ≤ (a - p) / p ∧ (a - p) / p ≤ 10 <;> simp [h1, h2]
    · simp [h1]

/-- C2: for a positive current price, `validate_psu_targets` keeps exactly
the input targets strictly above the price whose relative upside lies in
the inclusive interval `[1/10, 10]`; in particular `validate({40, 60}, 50)`
is `{60}` under either input ordering, and `40` is never kept. -/
theorem validate_psu_targets_spec :
    (∀ (targets : List ℚ) (current_price t : ℚ), 0 < current_price →
      (t ∈ validate_psu_targets targets current_price ↔
        t ∈ targets ∧ current_price < t ∧
          1/10 ≤ (t - current_price) / current_price ∧
          (t - current_price) / current_price ≤ 10)) ∧
    validate_psu_targets [40, 60] 50 = [60] ∧
    validate_psu_targets [60, 40] 50 = [60] := by
  refine ⟨?_, by norm_num [validate_psu_targets], by norm_num [validate_psu_targets]⟩
  intro targets p t _
  rw [validate_psu_targets_eq_filter, List.mem_filter]
  simp [and_assoc]

/-- Witness for C2 at the spec's own example. -/
theorem validate_psu_targets_spec_witness :
    (60 : ℚ) ∈ validate_psu_targets [40, 60] 50 ∧
    (40 : ℚ) ∉ validate_psu_targets [40, 60] 50 := by
  have h := validate_psu_targets_spec
  constructor
  · exact (h.1 [40, 60] 50 60 (by norm_num)).mpr (by norm_num)
  · intro hmem
    have h40 := (h.1 [40, 60] 50 40 (by norm_num)).mp hmem
    norm_num at h40

/-- C4: if no sentence segment of the filing text qualifies — i.e. no
restored sentence contains a PSU keyword without also containing an
excluded keyword, which is exactly `sentenceQualifies = false` — then
`extract_psu_price_targets` returns the empty set.  In particular a text
with no PSU keyword at all, and a dollar amount occurring only inside an
excluded-keyword sentence, yield nothing. -/
theorem extract_empty_of_no_qualifying_segment (filing_text : List Char)
    (h : ∀ s ∈ restoredSentences filing_text, sentenceQualifies s = false) :
    extract_psu_price_targets filing_text = [] := by
  have hsec : psuSectionsOf filing_text = [] := by
    rw [psuSectionsOf, List.filter_eq_nil]
    intro s hs
    simp [h s hs]
  simp [extract_psu_price_targets, hsec]

/-- Witness for C4: the spec's own example text, whose single sentence
holds its only dollar amount next to the excluded keywords
`warrant` / `exercise price`; the extractor returns the empty set and
`50` is not among the targets. -/
theorem extract_empty_of_no_qualifying_segment_witness :
    extract_psu_price_targets "A warrant exercise price of $50 was set".toList = [] ∧
    (50 : ℚ) ∉ extract_psu_price_targets "A warrant exercise price of $50 was set".toList := by
  have h := extract_empty_of_no_qualifying_segment
    "A warrant exercise price of $50 was set".toList (by decide)
  rw [h]
  exact ⟨rfl, by simp⟩

/-- C3 (divergence witness): in
`"The hurdle is $30! The PSU vests at $60"` both sentences qualify; the
range tier yields nothing; the primary tier fires on the second segment
(capturing `60`); yet the extractor also returns the secondary-tier
candidate `30` from the first segment, because the secondary sweep at
source lines 137-145 is nested inside the per-section primary loop and
runs as soon as the *first* section's primary pass leaves `targets`
empty.  Under the spec's tier short-circuiting the result would be
`{60}` alone. -/
theorem tier_mixing_at_failing_input :
    psuSectionsOf "The hurdle is $30! The PSU vests at $60".toList =
      ["The hurdle is $30".toList, " The PSU vests at $60".toList] ∧
    rangeHits (psuSectionsOf "The hurdle is $30! The PSU vests at $60".toList) = [] ∧
    primaryHits "The hurdle is $30".toList = [] ∧
    primaryHits " The PSU vests at $60".toList = [60] ∧
    collectPatterns secondary_patterns "The hurdle is $30".toList = [30] ∧
    extract_psu_price_targets "The hurdle is $30! The PSU vests at $60".toList =
      [30, 60] := by
  with_unfolding_all decide

/-- A filing descriptor used by the concrete witnesses. -/
def filingA : Filing := ⟨some "2024-01-02", some "https://www.sec.gov/a", some "4"⟩

/-- C10: whenever `extract_from_ticker` returns a quality-control
rejection (a result carrying `rejection_reason`), its `psu_targets`,
`filings_analyzed` and `filing_content_snippets` are empty and both
upside fields are `None` — the provenance accumulated before the decision
is discarded — while `form4_filings_found` still reports the number of
filings found and `current_price` the fetched price. -/
theorem rejection_discards_provenance (ticker : String) (months_back : ℕ)
    (price_data : Option ℚ) (filings : List Filing)
    (download : Filing → Option (List Char))
    (h : (extract_from_ticker ticker months_back price_data filings
            download).rejection_reason.isSome = true) :
    ∃ p, price_data = some p ∧
      (extract_from_ticker ticker months_back price_data filings download).current_price
          = some p ∧
      (extract_from_ticker ticker months_back price_data filings download).psu_targets
          = [] ∧
      (extract_from_ticker ticker months_back price_data filings download).filings_analyzed
          = [] ∧
      (extract_from_ticker ticker months_back price_data filings
          download).filing_content_snippets = [] ∧
      (extract_from_ticker ticker months_back price_data filings
          download).nearest_target_upside = none ∧
      (extract_from_ticker ticker months_back price_data filings
          download).furthest_target_upside = none ∧
      (extract_from_ticker ticker months_back price_data filings
          download).form4_filings_found = filings.length := by
  cases price_data with
  | none =>
    exfalso
    simp [extract_from_ticker, priceErrorResult] at h
  | some p =>
    refine ⟨p, rfl, ?_⟩
    unfold extract_from_ticker at h ⊢
    dsimp only at h ⊢
    split_ifs at h ⊢ with hz hf hu hv
    · exfalso; simp [priceErrorResult] at h
    · exfalso; simp [noFilingsResult] at h
    · simp [rejectionResult]
    · simp [rejectionResult]
    · exfalso
      revert h
      split
      · simp [exceptErrorResult]
      · simp

/-- Witness for C10: one filing is found but its content never downloads,
so zero unique targets are extracted and the ticker is rejected. -/
theorem rejection_discards_provenance_witness :
    (extract_from_ticker "AAPL" 3 (some 50) [filingA]
        (fun _ => none)).rejection_reason.isSome = true ∧
    ∃ p, (some (50 : ℚ)) = some p ∧
      (extract_from_ticker "AAPL" 3 (some 50) [filingA] (fun _ => none)).current_price
          = some p ∧
      (extract_from_ticker "AAPL" 3 (some 50) [filingA] (fun _ => none)).psu_targets
          = [] ∧
      (extract_from_ticker "AAPL" 3 (some 50) [filingA] (fun _ => none)).filings_analyzed
          = [] ∧
      (extract_from_ticker "AAPL" 3 (some 50) [filingA]
          (fun _ => none)).filing_content_snippets = [] ∧
      (extract_from_ticker "AAPL" 3 (some 50) [filingA]
          (fun _ => none)).nearest_target_upside = none ∧
      (extract_from_ticker "AAPL" 3 (some 50) [filingA]
          (fun _ => none)).furthest_target_upside = none ∧
      (extract_from_ticker "AAPL" 3 (some 50) [filingA]
          (fun _ => none)).form4_filings_found = [filingA].length :=
  ⟨by with_unfolding_all decide
  , rejection_discards_provenance "AAPL" 3 (some 50) [filingA] (fun _ => none)
      (by with_unfolding_all decide)⟩

/-- A download oracle returning a filing text with two extractable
targets. -/
def dlTwo : Filing → Option (List Char) :=
  fun _ => some "PSU target of $10 and PSU target of $20".toList

/-- A download oracle returning a filing text with one extractable
target. -/
def dlOne : Filing → Option (List Char) :=
  fun _ => some "The PSU vests at $42".toList

/-- C1 (counterexample): two low-target outcomes that are *not*
rejection results carrying a `rejection_reason`.  (i) With a fetched price
and an empty filing list, zero unique raw targets exist, yet the result
has no `rejection_reason` (it is the plain no-filings result).  (ii) With
a fetched price of `0.0` — falsy under `if not price_data:` — nothing is
extracted (zero raw targets) and the result is the price-fetch error
result, again without a `rejection_reason`. -/
theorem min_two_rule_counterexample :
    (uniqueRawTargets [] (fun _ => none) = [] ∧
     (extract_from_ticker "AAPL" 3 (some 50) [] (fun _ => none)).rejection_reason = none ∧
     (extract_from_ticker "AAPL" 3 (some 50) [] (fun _ => none)).psu_targets = []) ∧
    ((extract_from_ticker "AAPL" 3 (some 0) [filingA] dlTwo)
        = priceErrorResult "AAPL" 3 ∧
     (extract_from_ticker "AAPL" 3 (some 0) [filingA] dlTwo).rejection_reason = none ∧
     (extract_from_ticker "AAPL" 3 (some 0) [filingA] dlTwo).error.isSome = true ∧
     (extract_from_ticker "AAPL" 3 (some 0) [filingA] dlTwo).psu_targets = []) := by
  with_unfolding_all decide

/-- C1 (amended): a success — a result with non-empty `psu_targets` —
requires at least 2 unique raw targets and at least 2 validated targets
(and never carries a `rejection_reason`); and *provided the fetched price
is truthy (nonzero) and at least one filing was found*, fewer than 2
unique raw targets or fewer than 2 validated targets always produce a
rejection result carrying a `rejection_reason` and empty `psu_targets`.
A missing price yields a result with empty `psu_targets`, and a fetched
price of zero is falsy under `if not price_data:` and yields the
price-fetch error result — neither carries a `rejection_reason`. -/
theorem extract_from_ticker_min_two_rule (ticker : String) (months_back : ℕ)
    (p : ℚ) (filings : List Filing) (download : Filing → Option (List Char)) :
    ((extract_from_ticker ticker months_back none filings download).psu_targets = [] ∧
     (extract_from_ticker ticker months_back none filings
        download).rejection_reason = none) ∧
    (extract_from_ticker ticker months_back (some 0) filings download
        = priceErrorResult ticker months_back) ∧
    ((extract_from_ticker ticker months_back (some p) filings download).psu_targets ≠ [] →
      2 ≤ (uniqueRawTargets filings download).length ∧
      2 ≤ (validate_psu_targets (uniqueRawTargets filings download) p).length ∧
      (extract_from_ticker ticker months_back (some p) filings
        download).rejection_reason = none) ∧
    (p ≠ 0 → filings ≠ [] →
      ((uniqueRawTargets filings download).length < 2 ∨
        (validate_psu_targets (uniqueRawTargets filings download) p).length < 2) →
      (extract_from_ticker ticker months_back (some p) filings
          download).rejection_reason.isSome = true ∧
      (extract_from_ticker ticker months_back (some p) filings
          download).psu_targets = []) := by
  refine ⟨⟨rfl, rfl⟩, ?_, ?_, ?_⟩
  · unfold extract_from_ticker
    dsimp only
    rw [if_pos rfl]
  · unfold extract_from_ticker
    dsimp only
    split_ifs with hz hf hu hv
    · simp [priceErrorResult]
    · simp [noFilingsResult]
    · simp [rejectionResult]
    · simp [rejectionResult]
    · split
      · simp [exceptErrorResult]
      · exact fun _ => ⟨by omega, by omega, rfl⟩
  · intro hp hfne hlt
    unfold extract_from_ticker
    dsimp only
    split_ifs with hz hf hu hv
    · exact absurd hz hp
    · exact absurd (List.isEmpty_iff.mp hf) hfne
    · simp [rejectionResult]
    · simp [rejectionResult]
    · omega

/-- Witness for C1: one filing whose text yields a single unique target;
the ≥2 rule rejects it with a `rejection_reason` and empty targets. -/
theorem extract_from_ticker_min_two_rule_witness :
    (uniqueRawTargets [filingA] dlOne).length < 2 ∧
    (extract_from_ticker "AAPL" 3 (some 50) [filingA]
        dlOne).rejection_reason.isSome = true ∧
    (extract_from_ticker "AAPL" 3 (some 50) [filingA] dlOne).psu_targets = [] := by
  have h := (extract_from_ticker_min_two_rule "AAPL" 3 50 [filingA] dlOne).2.2.2
    (by norm_num) (by simp)
    (Or.inl (by with_unfolding_all decide))
  exact ⟨by with_unfolding_all decide, h.1, h.2⟩

/-- The minimum of a rational list never exceeds its maximum. -/
lemma rat_min?_le_max? {l : List ℚ} {m M : ℚ}
    (hm : l.min? = some m) (hM : l.max? = some M) : m ≤ M := by
  have hmem : m ∈ l := List.min?_mem (fun a b => min_choice a b) hm
  haveI : Std.Antisymm (fun (a b : ℚ) => a ≤ b) :=
    ⟨fun h1 h2 => le_antisymm h1 h2⟩
  have hMax := (List.max?_eq_some_iff (fun a => le_refl a)
    (fun a b => max_choice a b) (fun a b c => max_le_iff)).mp hM
  exact hMax.2 m hmem

/-- Membership in `validate_psu_targets`. -/
lemma mem_validate_psu_targets {t : ℚ} {targets : List ℚ} {p : ℚ}
    (h : t ∈ validate_psu_targets targets p) :
    t ∈ targets ∧ p < t ∧ 1/10 ≤ (t - p) / p ∧ (t - p) / p ≤ 10 := by
  rw [validate_psu_targets_eq_filter, List.mem_filter] at h
  simpa [and_assoc] using h

/-- `validate_psu_targets` of a sorted list is sorted (it is an
order-preserving filter). -/
lemma validate_psu_targets_sorted {targets : List ℚ} {p : ℚ}
    (h : List.Sorted (· ≤ ·) targets) :
    List.Sorted (· ≤ ·) (validate_psu_targets targets p) := by
  rw [validate_psu_targets_eq_filter]
  exact List.Pairwise.filter _ h

/-- `uniqueRawTargets` is sorted ascending. -/
lemma uniqueRawTargets_sorted (filings : List Filing)
    (download : Filing → Option (List Char)) :
    List.Sorted (· ≤ ·) (uniqueRawTargets filings download) :=
  List.sorted_insertionSort _ _

/-- C5: every successful result carries ascending `psu_targets`, a
positive fetched price, `nearest_target_upside` computed from the minimum
validated target and `furthest_target_upside` from the maximum, and
consequently `furthest ≥ nearest`. -/
theorem success_result_upsides (ticker : String) (months_back : ℕ)
    (price_data : Option ℚ) (filings : List Filing)
    (download : Filing → Option (List Char))
    (h : (extract_from_ticker ticker months_back price_data filings
            download).psu_targets ≠ []) :
    ∃ p m M,
      (extract_from_ticker ticker months_back price_data filings download).current_price
          = some p ∧ 0 < p ∧
      (extract_from_ticker ticker months_back price_data filings
          download).psu_targets.min? = some m ∧
      (extract_from_ticker ticker months_back price_data filings
          download).psu_targets.max? = some M ∧
      (extract_from_ticker ticker months_back price_data filings
          download).nearest_target_upside = some ((m - p) / p * 100) ∧
      (extract_from_ticker ticker months_back price_data filings
          download).furthest_target_upside = some ((M - p) / p * 100) ∧
      List.Sorted (· ≤ ·)
        (extract_from_ticker ticker months_back price_data filings
          download).psu_targets ∧
      (m - p) / p * 100 ≤ (M - p) / p * 100 := by
  cases price_data with
  | none => exact absurd rfl h
  | some p =>
    revert h
    unfold extract_from_ticker
    dsimp only
    split_ifs with hz hf hu hv
    · exact fun h => absurd rfl h
    · exact fun h => absurd rfl h
    · exact fun h => absurd rfl h
    · exact fun h => absurd rfl h
    · split
      · exact fun h => absurd rfl h
      · intro _
        have hvlen : 2 ≤ (validate_psu_targets (uniqueRawTargets filings download) p).length := by
          omega
        have hvne : validate_psu_targets (uniqueRawTargets filings download) p ≠ [] := by
          intro hnil
          rw [hnil] at hvlen
          simp at hvlen
        obtain ⟨m, hm⟩ : ∃ m,
            (validate_psu_targets (uniqueRawTargets filings download) p).min? = some m := by
          cases hmm : (validate_psu_targets (uniqueRawTargets filings download) p).min? with
          | none => exact absurd (List.min?_eq_none_iff.mp hmm) hvne
          | some m => exact ⟨m, rfl⟩
        obtain ⟨M, hM⟩ : ∃ M,
            (validate_psu_targets (uniqueRawTargets filings download) p).max? = some M := by
          cases hMM : (validate_psu_targets (uniqueRawTargets filings download) p).max? with
          | none => exact absurd (List.max?_eq_none_iff.mp hMM) hvne
          | some M => exact ⟨M, rfl⟩
        have hmemm : m ∈ validate_psu_targets (uniqueRawTargets filings download) p :=
          List.min?_mem (fun a b => min_choice a b) hm
        obtain ⟨_, hpm, hlow, _⟩ := mem_validate_psu_targets hmemm
        have hpne : p ≠ 0 := hz
        have hppos : 0 < p := by
          rcases lt_trichotomy p 0 with hneg | h0 | hpos
          · have : (m - p) / p < 0 := div_neg_of_pos_of_neg (by linarith) hneg
            linarith
          · exact absurd h0 hpne
          · exact hpos
        have hmM : m ≤ M := rat_min?_le_max? hm hM
        refine ⟨p, m, M, rfl, hppos, hm, hM, by rw [hm]; rfl, by rw [hM]; rfl, ?_, ?_⟩
        · exact validate_psu_targets_sorted (uniqueRawTargets_sorted filings download)
        · have := (div_le_div_iff_of_pos_right hppos).mpr
            (show m - p ≤ M - p by linarith)
          nlinarith

/-- A download oracle whose filing text yields targets 55, 70 and 90. -/
def dlThree : Filing → Option (List Char) :=
  fun _ => some "PSU target of $55. The PSU vests at $70. PSU award at $90".toList

/-- Witness for C5: at price 50 with validated targets `[55, 70, 90]` the
success result carries `nearest = 10` and `furthest = 80`. -/
theorem success_result_upsides_witness :
    (extract_from_ticker "HROW" 3 (some 50) [filingA] dlThree).psu_targets
        = [55, 70, 90] ∧
    (extract_from_ticker "HROW" 3 (some 50) [filingA]
        dlThree).nearest_target_upside = some 10 ∧
    (extract_from_ticker "HROW" 3 (some 50) [filingA]
        dlThree).furthest_target_upside = some 80 ∧
    ∃ p m M,
      (extract_from_ticker "HROW" 3 (some 50) [filingA] dlThree).current_price
          = some p ∧ 0 < p ∧
      (extract_from_ticker "HROW" 3 (some 50) [filingA]
          dlThree).psu_targets.min? = some m ∧
      (extract_from_ticker "HROW" 3 (some 50) [filingA]
          dlThree).psu_targets.max? = some M ∧
      (extract_from_ticker "HROW" 3 (some 50) [filingA]
          dlThree).nearest_target_upside = some ((m - p) / p * 100) ∧
      (extract_from_ticker "HROW" 3 (some 50) [filingA]
          dlThree).furthest_target_upside = some ((M - p) / p * 100) ∧
      List.Sorted (· ≤ ·)
        (extract_from_ticker "HROW" 3 (some 50) [filingA] dlThree).psu_targets ∧
      (m - p) / p * 100 ≤ (M - p) / p * 100 :=
  ⟨by with_unfolding_all decide
  , by with_unfolding_all decide
  , by with_unfolding_all decide
  , success_result_upsides "HROW" 3 (some 50) [filingA] dlThree
      (by with_unfolding_all decide)⟩

/-- Every terminal error result built by `_create_error_result` is tagged
`retry_failed`, carries an error and no targets, and is classified by the
completion loop as a permanent failure. -/
lemma createErrorResult_fields (ticker msg : String) :
    (createErrorResult ticker msg).retry_failed = true ∧
    (createErrorResult ticker msg).error.isSome = true ∧
    (createErrorResult ticker msg).psu_targets = [] ∧
    (createErrorResult ticker msg).rejection_reason = none ∧
    classifyResult (createErrorResult ticker msg) = ResultClass.permanentFailure := by
  simp [createErrorResult, classifyResult]

/-- If every attempt raises, the retry loop ends in a
`_create_error_result`. -/
lemma processTickerLoop_all_fail (ticker : String) (attempts : ℕ → AttemptOutcome)
    (h : ∀ i r, attempts i ≠ AttemptOutcome.ok r) :
    ∀ fuel attempt, ∃ msg,
      processTickerLoop ticker attempts fuel attempt = createErrorResult ticker msg := by
  intro fuel
  induction fuel with
  | zero => exact fun attempt => ⟨_, rfl⟩
  | succ n ih =>
    intro attempt
    unfold processTickerLoop
    cases e : attempts attempt with
    | ok r => exact absurd e (h attempt r)
    | timeout m =>
      dsimp only
      split_ifs with hlt
      · exact ih (attempt + 1)
      · exact ⟨_, rfl⟩
    | requestExc m =>
      dsimp only
      split_ifs with hrl hlt hlt
      · exact ih (attempt + 1)
      · exact ⟨_, rfl⟩
      · exact ih (attempt + 1)
      · exact ⟨_, rfl⟩
    | keyError m =>
      dsimp only
      split_ifs with hlt
      · exact ih (attempt + 1)
      · exact ⟨_, rfl⟩
    | valueError m =>
      dsimp only
      split_ifs with hlt
      · exact ih (attempt + 1)
      · exact ⟨_, rfl⟩
    | unexpected m =>
      dsimp only
      split_ifs with hlt
      · exact ih (attempt + 1)
      · exact ⟨_, rfl⟩

/-- C6: `process_ticker` is a total function into result dictionaries —
no exception crosses the task boundary — and when every attempt fails it
returns a terminal error result tagged `retry_failed = true` carrying an
error message and empty targets, which the completion loop classifies as
a permanent failure, distinct from a quality-control rejection. -/
theorem process_ticker_exhausted_retries (ticker : String)
    (attempts : ℕ → AttemptOutcome)
    (h : ∀ i r, attempts i ≠ AttemptOutcome.ok r) :
    (process_ticker ticker attempts).retry_failed = true ∧
    (process_ticker ticker attempts).error.isSome = true ∧
    (process_ticker ticker attempts).psu_targets = [] ∧
    (process_ticker ticker attempts).rejection_reason = none ∧
    classifyResult (process_ticker ticker attempts) = ResultClass.permanentFailure ∧
    classifyResult (process_ticker ticker attempts) ≠ ResultClass.rejection := by
  obtain ⟨msg, hmsg⟩ := processTickerLoop_all_fail ticker attempts h 3 0
  rw [process_ticker, hmsg]
  obtain ⟨h1, h2, h3, h4, h5⟩ := createErrorResult_fields ticker msg
  exact ⟨h1, h2, h3, h4, h5, by rw [h5]; simp⟩

/-- Witness for C6: three straight timeouts. -/
theorem process_ticker_exhausted_retries_witness :
    (process_ticker "AAPL" (fun _ => AttemptOutcome.timeout "read timed out")).retry_failed
        = true ∧
    (process_ticker "AAPL"
        (fun _ => AttemptOutcome.timeout "read timed out")).error.isSome = true ∧
    (process_ticker "AAPL"
        (fun _ => AttemptOutcome.timeout "read timed out")).psu_targets = [] ∧
    (process_ticker "AAPL"
        (fun _ => AttemptOutcome.timeout "read timed out")).rejection_reason = none ∧
    classifyResult (process_ticker "AAPL" (fun _ => AttemptOutcome.timeout "read timed out"))
        = ResultClass.permanentFailure ∧
    classifyResult (process_ticker "AAPL" (fun _ => AttemptOutcome.timeout "read timed out"))
        ≠ ResultClass.rejection :=
  process_ticker_exhausted_retries "AAPL" (fun _ => AttemptOutcome.timeout "read timed out")
    (fun i r => by simp)

/-- A concrete quality-control rejection result (one filing, no
downloadable content). -/
def rejectionR : ExtractionResultD :=
  extract_from_ticker "AAPL" 3 (some 50) [filingA] (fun _ => none)

/-- C7 (counterexample): after the orchestrator completes one task whose
result is a quality-control rejection, the processed counter is 1 but the
rejection result is *not* present in the `results` list the main result
file serializes — the completion loop's rejection branch appends nothing. -/
theorem orchestrator_results_counterexample :
    rejectionR.rejection_reason.isSome = true ∧
    (processCompleted initialOrchState
        [("AAPL", TaskOutcome.completed rejectionR)]).processed_tickers = 1 ∧
    (processCompleted initialOrchState
        [("AAPL", TaskOutcome.completed rejectionR)]).results = [] := by
  with_unfolding_all decide

/-- A task whose completed result is a success. -/
def isSuccessTask : String × TaskOutcome → Bool
  | (_, TaskOutcome.completed r) => !r.psu_targets.isEmpty
  | _ => false

/-- A task whose completed result is a terminal retry failure. -/
def isRetryFailedTask : String × TaskOutcome → Bool
  | (_, TaskOutcome.completed r) => r.psu_targets.isEmpty && r.retry_failed
  | _ => false

/-- A task whose future raised at `future.result()`. -/
def isCrashedTask : String × TaskOutcome → Bool
  | (_, TaskOutcome.raised _) => true
  | _ => false

/-- Field bookkeeping of one completion-loop iteration, for tasks whose
successful results carry a `furthest_target_upside` (as every
`process_ticker` output does). -/
lemma orchStep_bookkeeping (st : OrchState) (task : String × TaskOutcome)
    (hwf : ∀ r, task.2 = TaskOutcome.completed r →
      (r.psu_targets.isEmpty = false → r.furthest_target_upside.isSome = true)) :
    (orchStep st task).processed_tickers = st.processed_tickers + 1 ∧
    (orchStep st task).results.length = st.results.length +
      ((if isSuccessTask task then 1 else 0) + (if isRetryFailedTask task then 1 else 0) +
        (if isCrashedTask task then 1 else 0)) ∧
    (orchStep st task).high_upside_results.length +
        (orchStep st task).low_upside_results.length =
      st.high_upside_results.length + st.low_upside_results.length +
        (if isSuccessTask task then 1 else 0) := by
  obtain ⟨tk, o⟩ := task
  cases o with
  | raised msg =>
    simp [orchStep, isSuccessTask, isRetryFailedTask, isCrashedTask]
  | completed r =>
    by_cases hs : r.psu_targets.isEmpty
    · by_cases hrf : r.retry_failed
      · simp [orchStep, isSuccessTask, isRetryFailedTask, isCrashedTask, hs, hrf]
      · by_cases hrr : r.rejection_reason.isSome
        all_goals
          simp [orchStep, isSuccessTask, isRetryFailedTask, isCrashedTask, hs, hrf, hrr]
    · have hfi := hwf r rfl (by simpa using hs)
      cases hf : r.furthest_target_upside with
      | none => rw [hf] at hfi; simp at hfi
      | some f =>
        by_cases h40 : 40 < f
        all_goals
          simp [orchStep, isSuccessTask, isRetryFailedTask, isCrashedTask, hs, hf, h40]
        all_goals omega

/-- C7 (amended): completing N tasks advances the processed counter by
exactly N, the serialized `results` list receives exactly the successes,
the retry-failed error results and the executor-crash error results —
quality-control rejections and plain no-target failures are *not*
appended — and the high/low upside lists together receive exactly the
successes. -/
theorem orchestrator_bookkeeping (st0 : OrchState)
    (tasks : List (String × TaskOutcome))
    (hW : ∀ task ∈ tasks, ∀ r, task.2 = TaskOutcome.completed r →
      (r.psu_targets.isEmpty = false → r.furthest_target_upside.isSome = true)) :
    (processCompleted st0 tasks).processed_tickers
        = st0.processed_tickers + tasks.length ∧
    (processCompleted st0 tasks).results.length = st0.results.length +
      (tasks.countP isSuccessTask + tasks.countP isRetryFailedTask +
        tasks.countP isCrashedTask) ∧
    (processCompleted st0 tasks).high_upside_results.length +
        (processCompleted st0 tasks).low_upside_results.length =
      st0.high_upside_results.length + st0.low_upside_results.length +
        tasks.countP isSuccessTask := by
  induction tasks generalizing st0 with
  | nil => simp [processCompleted]
  | cons t ts ih =>
    have hstep := orchStep_bookkeeping st0 t (hW t (by simp))
    have hrest := ih (orchStep st0 t) (fun task hmem => hW task (by simp [hmem]))
    rw [show processCompleted st0 (t :: ts) = processCompleted (orchStep st0 t) ts from rfl]
    obtain ⟨a1, a2, a3⟩ := hstep
    obtain ⟨b1, b2, b3⟩ := hrest
    by_cases c1 : isSuccessTask t <;> by_cases c2 : isRetryFailedTask t <;>
      by_cases c3 : isCrashedTask t <;>
      simp only [c1, c2, c3, List.countP_cons, List.length_cons, if_true, if_false,
        Bool.false_eq_true, ite_true, ite_false] at a2 a3 ⊢ <;>
      exact ⟨by omega, by omega, by omega⟩

/-- A concrete successful extraction result. -/
def successR : ExtractionResultD :=
  extract_from_ticker "HROW" 3 (some 50) [filingA] dlThree

/-- A concrete completed-task list: one success, one rejection, one
executor crash. -/
def tasksW : List (String × TaskOutcome) :=
  [ ("HROW", TaskOutcome.completed successR)
  , ("AAPL", TaskOutcome.completed rejectionR)
  , ("ZZZ", TaskOutcome.raised "boom") ]

/-- Witness for C7 at a three-task completion sequence. -/
theorem orchestrator_bookkeeping_witness :
    (processCompleted initialOrchState tasksW).processed_tickers
        = initialOrchState.processed_tickers + tasksW.length ∧
    (processCompleted initialOrchState tasksW).results.length
        = initialOrchState.results.length +
          (tasksW.countP isSuccessTask + tasksW.countP isRetryFailedTask +
            tasksW.countP isCrashedTask) ∧
    (processCompleted initialOrchState tasksW).high_upside_results.length +
        (processCompleted initialOrchState tasksW).low_upside_results.length
      = initialOrchState.high_upside_results.length +
          initialOrchState.low_upside_results.length +
          tasksW.countP isSuccessTask :=
  orchestrator_bookkeeping initialOrchState tasksW (by
    intro task hmem r heq
    simp only [tasksW, List.mem_cons, List.not_mem_nil, or_false] at hmem
    rcases hmem with h | h | h
    all_goals subst h
    · rw [show (("HROW", TaskOutcome.completed successR) : String × TaskOutcome).2
          = TaskOutcome.completed successR from rfl] at heq
      cases heq
      with_unfolding_all decide
    · rw [show (("AAPL", TaskOutcome.completed rejectionR) : String × TaskOutcome).2
          = TaskOutcome.completed rejectionR from rfl] at heq
      cases heq
      with_unfolding_all decide
    · exact absurd heq (by simp))

/-- A loaded progress state whose `results` already contain the "AAPL"
rejection result. -/
def loadedWithAAPL : OrchState := { initialOrchState with results := [rejectionR] }

/-- C8 (counterexample): restarting with the same ticker list, a resume
flag `start_from = "AAPL"`, and a persisted state whose results already
contain "AAPL" still dispatches "AAPL" — the slice starts *at* the resume
ticker's index (inclusive) and prior results are never consulted. -/
theorem resume_reprocesses_counterexample :
    (loadedWithAAPL.results.any fun r => r.ticker == "AAPL") = true ∧
    dispatchForRun loadedWithAAPL ["AAPL", "MSFT"] (some "AAPL") none
        = ["AAPL", "MSFT"] ∧
    "AAPL" ∈ dispatchForRun loadedWithAAPL ["AAPL", "MSFT"] (some "AAPL") none := by
  with_unfolding_all decide

/-- C8 (amended): resume is positional, not keyed by prior results — for
any loaded state, the dispatched list is the ticker list from the resume
ticker's first index onward, and the resume ticker itself is always
dispatched (hence reprocessed) regardless of its presence in the loaded
results. -/
theorem dispatch_is_positional (loaded : OrchState) (tickers : List String)
    (s : String) (hmem : s.toUpper ∈ tickers) :
    dispatchForRun loaded tickers (some s) none
        = tickers.drop (tickers.indexOf s.toUpper) ∧
    s.toUpper ∈ dispatchForRun loaded tickers (some s) none := by
  have heq : dispatchForRun loaded tickers (some s) none
      = tickers.drop (tickers.indexOf s.toUpper) := by
    unfold dispatchForRun computeDispatch
    simp [hmem]
  refine ⟨heq, ?_⟩
  rw [heq]
  have hlt : tickers.indexOf s.toUpper < tickers.length :=
    List.indexOf_lt_length.mpr hmem
  rw [List.drop_eq_getElem_cons hlt]
  exact List.mem_cons.mpr (Or.inl (List.getElem_indexOf hlt).symm)

/-- Witness for C8. -/
theorem dispatch_is_positional_witness :
    dispatchForRun loadedWithAAPL ["AAPL", "MSFT"] (some "aapl") none
        = ["AAPL", "MSFT"].drop (["AAPL", "MSFT"].indexOf ("aapl".toUpper)) ∧
    "aapl".toUpper ∈ dispatchForRun loadedWithAAPL ["AAPL", "MSFT"] (some "aapl") none :=
  dispatch_is_positional loadedWithAAPL ["AAPL", "MSFT"] "aapl"
    (by with_unfolding_all decide)

/-- The fresh `__init__` state of the progress fields. -/
def defaultLoaded : LoadedState := ⟨defaultStats, [], [], []⟩

/-- C9 (counterexample): a valid state file from an earlier schema whose
`stats` object is missing the counter fields loads without aborting, but
it replaces the default stats wholesale, so the very next counter update
`self.stats['processed_tickers'] += 1` raises `KeyError` (modelled as
`none`) instead of using a default value. -/
theorem schema_defaults_counterexample :
    (load_progress (ProgressFile.parsed ⟨some [], none, none, none⟩)
        defaultLoaded).stats = [] ∧
    incrCounter (load_progress (ProgressFile.parsed ⟨some [], none, none, none⟩)
        defaultLoaded).stats "processed_tickers" = none ∧
    incrCounter defaultStats "processed_tickers" ≠ none := by
  with_unfolding_all decide

/-- C9 (amended): loading never aborts startup — a missing or corrupt
file leaves the default state untouched — and *extra* unknown fields in a
persisted `stats` object are harmless (counter updates still find the
known keys); but a present `stats` object replaces the defaults
wholesale, so counter fields absent from it are not defaulted and a later
`+= 1` on them errors (see the counterexample). -/
theorem load_progress_tolerance :
    (∀ self, load_progress ProgressFile.missing self = self) ∧
    (∀ self, load_progress ProgressFile.corrupt self = self) ∧
    (∀ self data, (load_progress (ProgressFile.parsed data) self).stats
        = data.stats.getD self.stats) ∧
    (∀ (extra : StatsDict) (k : String) (n : ℤ),
      dictGet defaultStats k = some (PVal.int n) →
      incrCounter (defaultStats ++ extra) k
        = some (dictSet (defaultStats ++ extra) k (PVal.int (n + 1)))) := by
  refine ⟨fun self => rfl, fun self => rfl, fun self data => rfl, ?_⟩
  intro extra k n hk
  unfold dictGet at hk
  obtain ⟨kv, hfind, hval⟩ := Option.map_eq_some'.mp hk
  unfold incrCounter dictGet
  rw [List.find?_append, hfind]
  simp [Option.or, hval]

/-- Witness for C9: an extra unknown counter field does not break the
`processed_tickers` update. -/
theorem load_progress_tolerance_witness :
    incrCounter (defaultStats ++ [("extra_counter", PVal.int 7)]) "processed_tickers"
      = some (dictSet (defaultStats ++ [("extra_counter", PVal.int 7)])
          "processed_tickers" (PVal.int (0 + 1))) :=
  load_progress_tolerance.2.2.2 [("extra_counter", PVal.int 7)] "processed_tickers" 0
    (by with_unfolding_all decide)
